import Mathlib

/-!
Shallow embedding of `src/main.py` (class `CatCloudBackup`): a command-line
utility that downloads a captioned cat image from cataas.com and uploads it to
Yandex.Disk, polling an async-operation status URL with exponential backoff,
and recording metadata of each upload.

HTTP is modelled by oracles: each call site receives a `NetResult` (or a
function from URL / attempt index to `NetResult`) describing what the network
returns there.  `requests` exceptions are modelled by `PyErr`;
`response.raise_for_status()` raises exactly for status codes in `[400, 600)`.
Wall-clock sleeping is modelled by recording the requested delays.
-/

namespace CatCloudBackup

def YANDEX_API_BASE_URL : String := "https://cloud-api.yandex.net/v1/disk"

def CAT_API_BASE_URL : String := "https://cataas.com/cat/says"

def REQUEST_TIMEOUT : Nat := 30

/-- The JSON object of a response body, projected to the fields the program
reads (`status`, `message`, `href` for operations, `size`/`created`/`modified`
for file metadata).  A missing key is `none`, matching `dict.get`. -/
structure JsonBody where
  status : Option String
  message : Option String
  href : Option String
  size : Option Nat
  created : Option String
  modified : Option String
  deriving Repr, DecidableEq

def JsonBody.empty : JsonBody := ⟨none, none, none, none, none, none⟩

/-- An HTTP response: status code, parsed JSON body, raw content bytes. -/
structure HttpResponse where
  statusCode : Nat
  body : JsonBody
  content : List Nat
  deriving Repr, DecidableEq

/-- What a single `requests` call does: time out, fail at transport level,
or deliver a response. -/
inductive NetResult where
  | timeout (msg : String)
  | connError (msg : String)
  | response (resp : HttpResponse)
  deriving Repr, DecidableEq

/-- Python exceptions the program can raise:
`requests.exceptions.RequestException` (and its subclasses), and the
`KeyError` escaping `response.json()["href"]` in `_get_upload_url`. -/
inductive PyErr where
  | RequestException (msg : String)
  | KeyError (key : String)
  deriving Repr, DecidableEq

instance instDecEqExcept {ε α : Type} [DecidableEq ε] [DecidableEq α] :
    DecidableEq (Except ε α) := fun a b =>
  match a, b with
  | .ok x, .ok y =>
      if h : x = y then isTrue (by rw [h]) else
        isFalse (by intro hc; cases hc; exact h rfl)
  | .error x, .error y =>
      if h : x = y then isTrue (by rw [h]) else
        isFalse (by intro hc; cases hc; exact h rfl)
  | .ok _, .error _ => isFalse (by intro hc; cases hc)
  | .error _, .ok _ => isFalse (by intro hc; cases hc)

/-- `response.raise_for_status()` raises iff `400 ≤ code < 600`;
`true` means no exception. -/
def statusOkB (code : Nat) : Bool := decide (code < 400) || decide (600 ≤ code)

/-- Abstraction of the message of the `requests.HTTPError` raised by
`raise_for_status` (its exact text is library-internal). -/
def http_error_message (code : Nat) : String := "HTTP error " ++ toString code

/-- `_download_cat_image` builds its URL as `f"{self.CAT_API_BASE_URL}/{text}"`. -/
def cat_image_url (text : String) : String := CAT_API_BASE_URL ++ "/" ++ text

/-- `CatCloudBackup._download_cat_image`: GET the caption URL, return the body
bytes on success; a `Timeout` is re-raised as a `RequestException` naming the
URL, any other `RequestException` is re-raised wrapped. -/
def download_cat_image (text : String) (http : String → NetResult) :
    Except PyErr (List Nat) :=
  match http (cat_image_url text) with
  | .timeout _ =>
      .error (.RequestException
        ("Таймаут при загрузке изображения с " ++ cat_image_url text))
  | .connError m =>
      .error (.RequestException ("Ошибка при загрузке изображения: " ++ m))
  | .response resp =>
      if statusOkB resp.statusCode then .ok resp.content
      else .error (.RequestException
        ("Ошибка при загрузке изображения: " ++ http_error_message resp.statusCode))

/-- `CatCloudBackup._create_remote_directory`: PUT the folder path; a 409
("already exists") returns normally, before `raise_for_status` is consulted;
request errors and error statuses are wrapped into a `RequestException`. -/
def create_remote_directory (directory_path : String) (r : NetResult) :
    Except PyErr Unit :=
  match r with
  | .timeout m | .connError m =>
      .error (.RequestException
        ("Ошибка при создании папки " ++ directory_path ++ ": " ++ m))
  | .response resp =>
      if resp.statusCode = 409 then .ok ()
      else if statusOkB resp.statusCode then .ok ()
      else .error (.RequestException
        ("Ошибка при создании папки " ++ directory_path ++ ": "
          ++ http_error_message resp.statusCode))

/-- The string of unsafe characters of `_generate_filename`, as characters:
`" /\\:*?\"<>|"`. -/
def forbidden_chars : List Char :=
  [' ', '/', '\\', ':', '*', '?', '"', '<', '>', '|']

/-- Python `str.replace(char, "_")` for a single character. -/
def py_replace_char (s : List Char) (c : Char) : List Char :=
  s.map fun x => if x = c then '_' else x

/-- The sanitising loop of `_generate_filename`:
`for char in forbidden_chars: filename = filename.replace(char, "_")`. -/
def sanitize (text : List Char) : List Char :=
  forbidden_chars.foldl py_replace_char text

/-- `CatCloudBackup._generate_filename` on an already-formatted timestamp
(`datetime.now().strftime("%Y%m%d_%H%M%S_%f")[:-3]` in the source):
`f"{filename}_{timestamp}.jpg"`. -/
def generate_filename (text timestamp : List Char) : List Char :=
  sanitize text ++ ['_'] ++ timestamp ++ ".jpg".toList

def generate_filename_str (text timestamp : String) : String :=
  (generate_filename text.toList timestamp.toList).asString

/-- The per-character effect of the whole sanitising loop. -/
def sanitizeChar (c : Char) : Char := if c ∈ forbidden_chars then '_' else c

/-- `CatCloudBackup._get_upload_url`: GET an upload URL for `remote_path`;
on success return `response.json()["href"]` — plain indexing, so a missing
key raises `KeyError`, which `except RequestException` does not catch. -/
def get_upload_url (_remote_path : String) (r : NetResult) :
    Except PyErr String :=
  match r with
  | .timeout m | .connError m =>
      .error (.RequestException ("Ошибка при получении URL для загрузки: " ++ m))
  | .response resp =>
      if statusOkB resp.statusCode then
        match resp.body.href with
        | some u => .ok u
        | none => .error (.KeyError "href")
      else .error (.RequestException
        ("Ошибка при получении URL для загрузки: "
          ++ http_error_message resp.statusCode))

/-- `CatCloudBackup._get_file_metadata`: GET the resource metadata, returning
the parsed JSON body; request errors are wrapped into `RequestException`. -/
def get_file_metadata (r : NetResult) : Except PyErr JsonBody :=
  match r with
  | .timeout m | .connError m =>
      .error (.RequestException ("Ошибка при получении метаданных файла: " ++ m))
  | .response resp =>
      if statusOkB resp.statusCode then .ok resp.body
      else .error (.RequestException
        ("Ошибка при получении метаданных файла: "
          ++ http_error_message resp.statusCode))

/-! ## The poll loop `_wait_for_operation_completion` -/

def max_attempts : Nat := 10

/-- What one loop iteration's `try` block does with the attempt's response:
return (status `"success"`), raise (transport error, `raise_for_status`, or the
`"failed"` branch — whose raise happens *inside* the `try`), report
`"in-progress"`, or fall through for any other body. -/
inductive StepOutcome where
  | retOk
  | raised (e : String)
  | progress
  | other
  deriving Repr, DecidableEq

def pollClassify (r : NetResult) : StepOutcome :=
  match r with
  | .timeout m => .raised m
  | .connError m => .raised m
  | .response resp =>
      if statusOkB resp.statusCode then
        if resp.body.status = some "success" then .retOk
        else if resp.body.status = some "failed" then
          .raised ("Ошибка при загрузке файла: "
            ++ resp.body.message.getD "Неизвестная ошибка")
        else if resp.body.status = some "in-progress" then .progress
        else .other
      else .raised (http_error_message resp.statusCode)

/-- Result of the poll loop: how it ended, how many status GETs it issued, and
the sequence of `time.sleep` delays (seconds) it performed, in order. -/
structure PollResult where
  outcome : Except PyErr Unit
  requests : Nat
  sleeps : List Nat
  deriving Repr, DecidableEq

/-- The `for attempt in range(max_attempts)` loop, with `fuel` iterations left
(`attempt + fuel = max_attempts` at every call from `wait_for_operation_completion`).
An exception raised inside the `try` (transport error, HTTP error status, or
the `"failed"` branch) is caught by the loop's own handler: it is re-raised,
wrapped, only when `attempt == max_attempts - 1`.  `delay_seconds` doubles only
on an `"in-progress"` attempt that actually sleeps. -/
def waitAux (responses : Nat → NetResult) :
    Nat → Nat → Nat → Nat → List Nat → PollResult
  | 0, _, _, reqs, sleeps => ⟨.ok (), reqs, sleeps⟩
  | fuel + 1, attempt, delay, reqs, sleeps =>
    match pollClassify (responses attempt) with
    | .retOk => ⟨.ok (), reqs + 1, sleeps⟩
    | .raised e =>
        if attempt = max_attempts - 1 then
          ⟨.error (.RequestException
            ("Не удалось завершить операцию после " ++ toString max_attempts
              ++ " попыток: " ++ e)), reqs + 1, sleeps⟩
        else waitAux responses fuel (attempt + 1) delay (reqs + 1) sleeps
    | .progress =>
        if attempt < max_attempts - 1 then
          waitAux responses fuel (attempt + 1) (delay * 2) (reqs + 1)
            (sleeps ++ [delay])
        else waitAux responses fuel (attempt + 1) delay (reqs + 1) sleeps
    | .other => waitAux responses fuel (attempt + 1) delay (reqs + 1) sleeps

/-- `CatCloudBackup._wait_for_operation_completion`: up to 10 attempts,
initial delay 1 second.  Falling off the end of the loop returns `None`. -/
def wait_for_operation_completion (responses : Nat → NetResult) : PollResult :=
  waitAux responses max_attempts 0 1 0 []

/-! ## Upload, backup workflow and the backup-info file -/

/-- One backup record, exactly the dict built by `_upload_file_to_disk`:
name, remote path, size, created/modified timestamps. -/
structure FileInfo where
  name : String
  path : String
  size : Nat
  created : String
  modified : String
  deriving Repr, DecidableEq

/-- Observable actions of a run, in program order: reading the configuration
in `main`, and the five kinds of HTTP request the class makes. -/
inductive Event where
  | readConfig
  | createDir
  | downloadImage
  | getUploadUrl
  | putBytes
  | pollStatus
  | getMetadata
  deriving Repr, DecidableEq

/-- Network oracle for one call of `_upload_file_to_disk`: the responses to
the upload-URL GET, the PUT of the bytes, the status polls, and the metadata
GET; `nowCreated`/`nowModified` model the `datetime.now().isoformat()`
fallbacks used when the metadata lacks those keys. -/
structure UploadWorld where
  getUploadUrlResp : NetResult
  putResp : NetResult
  pollResponses : Nat → NetResult
  metadataResp : NetResult
  nowCreated : String
  nowModified : String

/-- The outer `except` clauses of `_upload_file_to_disk`: a `RequestException`
(all the inner helpers raise) is wrapped with the filename; a `KeyError` from
`_get_upload_url` is not caught and propagates unchanged. -/
def outer_wrap (filename : String) (e : PyErr) : PyErr :=
  match e with
  | .RequestException m =>
      .RequestException ("Ошибка при загрузке файла " ++ filename ++ ": " ++ m)
  | .KeyError k => .KeyError k

/-- Python truthiness of `response.json().get("href")`: a present, non-empty
string. -/
def href_truthy (h : Option String) : Bool :=
  match h with
  | some s => decide (s ≠ "")
  | none => false

structure UploadResult where
  outcome : Except PyErr FileInfo
  polled : Bool
  events : List Event
  deriving Repr, DecidableEq

/-- The tail of `_upload_file_to_disk` after the (possible) poll: fetch the
file metadata and build the info dict, with `len(file_data)` and the current
time as fallbacks for missing metadata keys. -/
def finish_upload (w : UploadWorld) (file_data : List Nat)
    (filename remote_path : String) (polled : Bool) (preEvents : List Event) :
    UploadResult :=
  match get_file_metadata w.metadataResp with
  | .error e => ⟨.error (outer_wrap filename e), polled, preEvents ++ [.getMetadata]⟩
  | .ok meta =>
      ⟨.ok { name := filename
             path := remote_path
             size := meta.size.getD file_data.length
             created := meta.created.getD w.nowCreated
             modified := meta.modified.getD w.nowModified },
       polled, preEvents ++ [.getMetadata]⟩

/-- `CatCloudBackup._upload_file_to_disk`: get an upload URL, PUT the bytes
(a raw `Timeout` of this PUT hits the outer `except Timeout`), and if the PUT
answered 202 with a truthy `href`, poll the operation URL before fetching the
metadata.  `polled` records whether `_wait_for_operation_completion` ran. -/
def upload_file_to_disk (w : UploadWorld) (file_data : List Nat)
    (filename group_name : String) : UploadResult :=
  let remote_path := "/" ++ group_name ++ "/" ++ filename
  match get_upload_url remote_path w.getUploadUrlResp with
  | .error e => ⟨.error (outer_wrap filename e), false, [.getUploadUrl]⟩
  | .ok _ =>
    match w.putResp with
    | .timeout _ =>
        ⟨.error (.RequestException ("Таймаут при загрузке файла " ++ filename)),
         false, [.getUploadUrl, .putBytes]⟩
    | .connError m =>
        ⟨.error (outer_wrap filename (.RequestException m)),
         false, [.getUploadUrl, .putBytes]⟩
    | .response resp =>
      if statusOkB resp.statusCode then
        if resp.statusCode = 202 then
          if href_truthy resp.body.href then
            let pr := wait_for_operation_completion w.pollResponses
            match pr.outcome with
            | .error e =>
                ⟨.error (outer_wrap filename e), true,
                 [.getUploadUrl, .putBytes]
                   ++ List.replicate pr.requests .pollStatus⟩
            | .ok _ =>
                finish_upload w file_data filename remote_path true
                  ([.getUploadUrl, .putBytes]
                    ++ List.replicate pr.requests .pollStatus)
          else finish_upload w file_data filename remote_path false
            [.getUploadUrl, .putBytes]
        else finish_upload w file_data filename remote_path false
          [.getUploadUrl, .putBytes]
      else
        ⟨.error (outer_wrap filename
            (.RequestException (http_error_message resp.statusCode))),
         false, [.getUploadUrl, .putBytes]⟩

/-- Network oracle for one `backup_cat_image` call. -/
structure BackupWorld where
  http : String → NetResult
  createDirResp : NetResult
  upload : UploadWorld

structure BackupResult where
  outcome : Except PyErr FileInfo
  infos : List FileInfo
  events : List Event
  deriving Repr, DecidableEq

/-- `CatCloudBackup.backup_cat_image`: create the folder, download the image,
generate the filename (from `text` and the strftime timestamp `ts`), upload,
and append the info dict to `self._uploaded_files_info` (`infos`).  The list
is touched only by that final `append`. -/
def backup_cat_image (w : BackupWorld) (text ts group_name : String)
    (infos : List FileInfo) : BackupResult :=
  match create_remote_directory ("/" ++ group_name) w.createDirResp with
  | .error e => ⟨.error e, infos, [.createDir]⟩
  | .ok _ =>
    match download_cat_image text w.http with
    | .error e => ⟨.error e, infos, [.createDir, .downloadImage]⟩
    | .ok image_data =>
      let filename := generate_filename_str text ts
      let ur := upload_file_to_disk w.upload image_data filename group_name
      match ur.outcome with
      | .error e => ⟨.error e, infos, [.createDir, .downloadImage] ++ ur.events⟩
      | .ok file_info =>
          ⟨.ok file_info, infos ++ [file_info],
           [.createDir, .downloadImage] ++ ur.events⟩

/-- `main`'s successful path up to the upload: read the configuration (token
and group name from the environment or a prompt — event `readConfig`), prompt
for the text, then run `backup_cat_image` on a fresh instance (whose record
list starts empty). -/
def main_workflow (w : BackupWorld) (text ts group_name : String) :
    BackupResult :=
  let r := backup_cat_image w text ts group_name []
  ⟨r.outcome, r.infos, .readConfig :: r.events⟩

/-- The JSON object `save_backup_info` writes. -/
structure BackupData where
  group_name : String
  backup_date : String
  files : List FileInfo
  total_files : Nat
  total_size : Nat
  deriving Repr, DecidableEq

/-- `CatCloudBackup.save_backup_info`: serialize the accumulated records,
with the group name, the current date and the totals, into the file named by
`filename`.  Writing to disk is modelled by returning the target filename
together with the serialized object. -/
def save_backup_info (group_name backup_date : String)
    (uploaded_files_info : List FileInfo) (filename : String) :
    String × BackupData :=
  (filename,
   { group_name := group_name
     backup_date := backup_date
     files := uploaded_files_info
     total_files := uploaded_files_info.length
     total_size := (uploaded_files_info.map FileInfo.size).sum })

/-- `save_backup_info` with its default argument `filename="backup_info.json"`. -/
def save_backup_info_default (group_name backup_date : String)
    (uploaded_files_info : List FileInfo) : String × BackupData :=
  save_backup_info group_name backup_date uploaded_files_info "backup_info.json"

/-! ## Concrete response oracles used as witnesses -/

def allInProgressResponses : Nat → NetResult := fun _ =>
  .response ⟨200, ⟨some "in-progress", none, none, none, none, none⟩, []⟩

def allSuccessResponses : Nat → NetResult := fun _ =>
  .response ⟨200, ⟨some "success", none, none, none, none, none⟩, []⟩

/-- First poll answers `"failed"` with message `"boom"`, the second `"success"`. -/
def failedThenSuccessResponses : Nat → NetResult := fun n =>
  if n = 0 then
    .response ⟨200, ⟨some "failed", some "boom", none, none, none, none⟩, []⟩
  else
    .response ⟨200, ⟨some "success", none, none, none, none, none⟩, []⟩

/-- A caption-service oracle always answering 200 with three bytes. -/
def catHttpOracle : String → NetResult := fun _ =>
  .response ⟨200, JsonBody.empty, [1, 2, 3]⟩

/-- A successful upload-URL answer carrying a non-empty `href`. -/
def okUploadUrlResp : NetResult :=
  .response ⟨200, ⟨none, none, some "https://upload.example", none, none, none⟩, []⟩

def okMetadataBody : JsonBody :=
  ⟨none, none, none, some 5, some "2025-01-01T00:00:00", some "2025-01-01T00:00:01"⟩

def okMetadataResp : NetResult := .response ⟨200, okMetadataBody, []⟩

/-- A PUT answer with status 202 whose body *contains* an `"href"` key bound
to the empty string — present, but falsy in Python. -/
def put202EmptyHrefResp : HttpResponse :=
  ⟨202, ⟨none, none, some "", none, none, none⟩, []⟩

def uploadWorld202EmptyHref : UploadWorld :=
  ⟨okUploadUrlResp, .response put202EmptyHrefResp, allSuccessResponses,
   okMetadataResp, "now-c", "now-m"⟩

/-- A synchronous upload: the PUT answers 201 Created. -/
def goodUploadWorld : UploadWorld :=
  ⟨okUploadUrlResp, .response ⟨201, JsonBody.empty, []⟩, allSuccessResponses,
   okMetadataResp, "now-c", "now-m"⟩

/-- The record `_upload_file_to_disk` builds in `goodUploadWorld` for the
filename `"f_1.jpg"` in group `"G"`. -/
def uploadOkInfo : FileInfo :=
  ⟨"f_1.jpg", "/G/f_1.jpg", 5, "2025-01-01T00:00:00", "2025-01-01T00:00:01"⟩

/-- A world in which every step of `backup_cat_image` succeeds. -/
def goodBackupWorld : BackupWorld :=
  ⟨catHttpOracle, .response ⟨201, JsonBody.empty, []⟩, goodUploadWorld⟩

/-- The record a successful `backup_cat_image goodBackupWorld "hello"
"20250101" "G"` run produces. -/
def backupOkInfo : FileInfo :=
  ⟨"hello_20250101.jpg", "/G/hello_20250101.jpg", 5,
   "2025-01-01T00:00:00", "2025-01-01T00:00:01"⟩

/-- A world whose folder-creation PUT answers 404, so `backup_cat_image`
fails at its first step. -/
def badCreateDirWorld : BackupWorld :=
  ⟨catHttpOracle, .response ⟨404, JsonBody.empty, []⟩, goodUploadWorld⟩

/-! ## Poll-loop lemmas -/

/-- The attempt's response is a non-error-status response whose body reports
`"success"`. -/
def reportsSuccess (r : NetResult) : Bool :=
  match r with
  | .response resp =>
      statusOkB resp.statusCode && decide (resp.body.status = some "success")
  | _ => false

/-- The attempt's response is a non-error-status response whose body reports
`"in-progress"`. -/
def reportsInProgress (r : NetResult) : Bool :=
  match r with
  | .response resp =>
      statusOkB resp.statusCode && decide (resp.body.status = some "in-progress")
  | _ => false

/-- The attempt's response is a non-error-status response whose body reports
`"failed"`, with `m` the message the program extracts
(`operation_status.get("message", "Неизвестная ошибка")`). -/
def reportsFailed (r : NetResult) (m : String) : Bool :=
  match r with
  | .response resp =>
      statusOkB resp.statusCode && decide (resp.body.status = some "failed")
        && decide (resp.body.message.getD "Неизвестная ошибка" = m)
  | _ => false

theorem pollClassify_of_success {r : NetResult} (h : reportsSuccess r = true) :
    pollClassify r = .retOk := by
  cases r with
  | timeout m => simp [reportsSuccess] at h
  | connError m => simp [reportsSuccess] at h
  | response resp =>
      simp only [reportsSuccess, Bool.and_eq_true, decide_eq_true_eq] at h
      simp [pollClassify, h.1, h.2]

theorem pollClassify_of_inProgress {r : NetResult}
    (h : reportsInProgress r = true) : pollClassify r = .progress := by
  cases r with
  | timeout m => simp [reportsInProgress] at h
  | connError m => simp [reportsInProgress] at h
  | response resp =>
      simp only [reportsInProgress, Bool.and_eq_true, decide_eq_true_eq] at h
      rw [pollClassify, h.2]
      simp [h.1]

theorem pollClassify_of_failed {r : NetResult} {m : String}
    (h : reportsFailed r m = true) :
    pollClassify r = .raised ("Ошибка при загрузке файла: " ++ m) := by
  cases r with
  | timeout m => simp [reportsFailed] at h
  | connError m => simp [reportsFailed] at h
  | response resp =>
      simp only [reportsFailed, Bool.and_eq_true, decide_eq_true_eq] at h
      rw [pollClassify, h.1.2]
      simp [h.1.1, h.2]

theorem cons_range_double (d k : Nat) :
    (List.range (k + 1)).map (fun i => d * 2 ^ i)
      = d :: (List.range k).map (fun i => d * 2 * 2 ^ i) := by
  rw [List.range_succ_eq_map, List.map_cons, List.map_map]
  simp only [pow_zero, mul_one, List.cons.injEq, true_and]
  apply List.map_congr_left
  intro a _
  simp [Function.comp, pow_succ]
  ring

/-- Invariant of the poll loop: each iteration issues one request, so the
request count grows by at most the remaining fuel, and the slept delays extend
the accumulator by a doubling sequence starting at the current delay. -/
theorem waitAux_bound (responses : Nat → NetResult) :
    ∀ fuel attempt delay reqs sleeps,
      (waitAux responses fuel attempt delay reqs sleeps).requests ≤ reqs + fuel ∧
      ∃ k, (waitAux responses fuel attempt delay reqs sleeps).sleeps
        = sleeps ++ (List.range k).map (fun i => delay * 2 ^ i) := by
  intro fuel
  induction fuel with
  | zero =>
      intro attempt delay reqs sleeps
      exact ⟨Nat.le_refl _, 0, by simp [waitAux]⟩
  | succ fuel ih =>
      intro attempt delay reqs sleeps
      cases hc : pollClassify (responses attempt) with
      | retOk =>
          simp only [waitAux, hc]
          exact ⟨by omega, 0, by simp⟩
      | raised e =>
          simp only [waitAux, hc]
          by_cases h9 : attempt = max_attempts - 1
          · rw [if_pos h9]
            refine ⟨?_, 0, by simp⟩
            show reqs + 1 ≤ reqs + (fuel + 1)
            omega
          · rw [if_neg h9]
            obtain ⟨hle, k, hk⟩ := ih (attempt + 1) delay (reqs + 1) sleeps
            exact ⟨by omega, k, hk⟩
      | progress =>
          simp only [waitAux, hc]
          by_cases h9 : attempt < max_attempts - 1
          · rw [if_pos h9]
            obtain ⟨hle, k, hk⟩ := ih (attempt + 1) (delay * 2) (reqs + 1)
              (sleeps ++ [delay])
            refine ⟨by omega, k + 1, ?_⟩
            rw [hk, cons_range_double, List.append_assoc]
            rfl
          · rw [if_neg h9]
            obtain ⟨hle, k, hk⟩ := ih (attempt + 1) delay (reqs + 1) sleeps
            exact ⟨by omega, k, hk⟩
      | other =>
          simp only [waitAux, hc]
          obtain ⟨hle, k, hk⟩ := ih (attempt + 1) delay (reqs + 1) sleeps
          exact ⟨by omega, k, hk⟩

/-- If the response of every attempt in `[attempt, max_attempts)` reports
`"in-progress"`, the loop runs out of attempts and returns `None`, having
issued one request per remaining attempt. -/
theorem waitAux_all_inProgress (responses : Nat → NetResult) :
    ∀ fuel attempt delay reqs sleeps, attempt + fuel = max_attempts →
      (∀ j, attempt ≤ j → j < max_attempts → reportsInProgress (responses j) = true) →
      (waitAux responses fuel attempt delay reqs sleeps).outcome = .ok () ∧
      (waitAux responses fuel attempt delay reqs sleeps).requests = reqs + fuel := by
  intro fuel
  induction fuel with
  | zero =>
      intro attempt delay reqs sleeps _ _
      exact ⟨rfl, rfl⟩
  | succ fuel ih =>
      intro attempt delay reqs sleeps hsum hall
      have hip : reportsInProgress (responses attempt) = true :=
        hall attempt (Nat.le_refl _) (by omega)
      simp only [waitAux, pollClassify_of_inProgress hip]
      have hall' : ∀ j, attempt + 1 ≤ j → j < max_attempts →
          reportsInProgress (responses j) = true :=
        fun j h1 h2 => hall j (by omega) h2
      by_cases h9 : attempt < max_attempts - 1
      · rw [if_pos h9]
        obtain ⟨h1, h2⟩ := ih (attempt + 1) (delay * 2) (reqs + 1)
          (sleeps ++ [delay]) (by omega) hall'
        exact ⟨h1, by omega⟩
      · rw [if_neg h9]
        obtain ⟨h1, h2⟩ := ih (attempt + 1) delay (reqs + 1) sleeps
          (by omega) hall'
        exact ⟨h1, by omega⟩

/-- If the attempts before `k` all report `"in-progress"` and attempt `k`
reports `"success"`, the loop returns `None` right at attempt `k`, having
issued `k + 1 - attempt` further requests. -/
theorem waitAux_success_at (responses : Nat → NetResult) :
    ∀ fuel attempt delay reqs sleeps k, attempt + fuel = max_attempts →
      attempt ≤ k → k < max_attempts →
      (∀ j, attempt ≤ j → j < k → reportsInProgress (responses j) = true) →
      reportsSuccess (responses k) = true →
      (waitAux responses fuel attempt delay reqs sleeps).outcome = .ok () ∧
      (waitAux responses fuel attempt delay reqs sleeps).requests
        = reqs + (k + 1 - attempt) := by
  intro fuel
  induction fuel with
  | zero =>
      intro attempt delay reqs sleeps k hsum hle hlt _ _
      omega
  | succ fuel ih =>
      intro attempt delay reqs sleeps k hsum hle hlt hpre hsucc
      by_cases hk : attempt = k
      · subst hk
        simp only [waitAux, pollClassify_of_success hsucc]
        refine ⟨trivial, ?_⟩
        show reqs + 1 = reqs + (attempt + 1 - attempt)
        omega
      · have hip : reportsInProgress (responses attempt) = true :=
          hpre attempt (Nat.le_refl _) (by omega)
        simp only [waitAux, pollClassify_of_inProgress hip]
        have hpre' : ∀ j, attempt + 1 ≤ j → j < k →
            reportsInProgress (responses j) = true :=
          fun j h1 h2 => hpre j (by omega) h2
        have h9 : attempt < max_attempts - 1 := by
          have : max_attempts = 10 := rfl
          omega
        rw [if_pos h9]
        obtain ⟨h1, h2⟩ := ih (attempt + 1) (delay * 2) (reqs + 1)
          (sleeps ++ [delay]) k (by omega) (by omega) hlt hpre' hsucc
        exact ⟨h1, by omega⟩

/-- If every remaining attempt reports `"failed"` with message `m`, the raise
of the `"failed"` branch is swallowed by the loop's own handler on every
attempt but the last, and the last attempt re-raises it wrapped. -/
theorem waitAux_all_failed (responses : Nat → NetResult) (m : String) :
    ∀ fuel attempt delay reqs sleeps, attempt + fuel = max_attempts → 0 < fuel →
      (∀ j, attempt ≤ j → j < max_attempts → reportsFailed (responses j) m = true) →
      (waitAux responses fuel attempt delay reqs sleeps).outcome
        = .error (.RequestException
            ("Не удалось завершить операцию после " ++ toString max_attempts
              ++ " попыток: " ++ ("Ошибка при загрузке файла: " ++ m))) ∧
      (waitAux responses fuel attempt delay reqs sleeps).requests = reqs + fuel := by
  intro fuel
  induction fuel with
  | zero =>
      intro attempt delay reqs sleeps _ hpos _
      omega
  | succ fuel ih =>
      intro attempt delay reqs sleeps hsum _ hall
      have hf : reportsFailed (responses attempt) m = true :=
        hall attempt (Nat.le_refl _) (by omega)
      simp only [waitAux, pollClassify_of_failed hf]
      by_cases h9 : attempt = max_attempts - 1
      · rw [if_pos h9]
        have hfuel : fuel = 0 := by
          have : max_attempts = 10 := rfl
          omega
        subst hfuel
        exact ⟨rfl, rfl⟩
      · rw [if_neg h9]
        have hpos' : 0 < fuel := by
          have : max_attempts = 10 := rfl
          omega
        obtain ⟨h1, h2⟩ := ih (attempt + 1) delay (reqs + 1) sleeps
          (by omega) hpos' (fun j hj1 hj2 => hall j (by omega) hj2)
        exact ⟨h1, by omega⟩

theorem waitAux_retOk {responses : Nat → NetResult} {attempt fuel delay reqs : Nat}
    {sleeps : List Nat} (hc : pollClassify (responses attempt) = .retOk) :
    waitAux responses (fuel + 1) attempt delay reqs sleeps
      = ⟨.ok (), reqs + 1, sleeps⟩ := by
  simp only [waitAux, hc]

theorem waitAux_raised_cont {responses : Nat → NetResult}
    {attempt fuel delay reqs : Nat} {sleeps : List Nat} {e : String}
    (hc : pollClassify (responses attempt) = .raised e)
    (h9 : attempt ≠ max_attempts - 1) :
    waitAux responses (fuel + 1) attempt delay reqs sleeps
      = waitAux responses fuel (attempt + 1) delay (reqs + 1) sleeps := by
  simp only [waitAux, hc]
  rw [if_neg h9]

/-! ## Claims about the poll loop: C1, C2, C8 -/

/-- C1: over every sequence of status responses,
`_wait_for_operation_completion` issues at most 10 status requests, and the
delays it sleeps form the doubling sequence 1, 2, 4, … — one doubling per
in-progress attempt that sleeps. -/
theorem C1_poll_bounded_with_doubling_backoff (responses : Nat → NetResult) :
    (wait_for_operation_completion responses).requests ≤ 10 ∧
    ∃ k, (wait_for_operation_completion responses).sleeps
      = (List.range k).map (fun i => 2 ^ i) := by
  obtain ⟨h1, k, hk⟩ := waitAux_bound responses max_attempts 0 1 0 []
  refine ⟨h1, k, ?_⟩
  rw [wait_for_operation_completion, hk]
  simp

/-- C2 counterexample: a run whose first status response reports `"failed"`
(message `"boom"`) and whose second reports `"success"`.  The claim says the
loop raises as soon as a response reports `"failed"`; in fact the raise is
caught by the loop's own `except` handler, a second status request is made,
and the loop returns normally. -/
theorem C2_counterexample_failed_then_success :
    reportsFailed (failedThenSuccessResponses 0) "boom" = true ∧
    (wait_for_operation_completion failedThenSuccessResponses).outcome
      = .ok () ∧
    (wait_for_operation_completion failedThenSuccessResponses).requests = 2 := by
  refine ⟨by decide, by decide, by decide⟩

/-- C2 amended: the loop returns normally as soon as a status response reports
`"success"` (no further requests); but a `"failed"` status raises only when it
occurs on the final (10th) attempt — the raise of an earlier `"failed"` is
swallowed by the loop's own exception handler and polling continues.  When
every attempt reports `"failed"`, the `RequestException` that escapes wraps
the message taken from the response's `"message"` field. -/
theorem C2_success_returns_failed_raises_only_on_last (responses : Nat → NetResult) :
    (∀ k, k < 10 → (∀ j, j < k → reportsInProgress (responses j) = true) →
       reportsSuccess (responses k) = true →
       (wait_for_operation_completion responses).outcome = .ok () ∧
       (wait_for_operation_completion responses).requests = k + 1) ∧
    (∀ m, (∀ j, j < 10 → reportsFailed (responses j) m = true) →
       (wait_for_operation_completion responses).outcome
         = .error (.RequestException
             ("Не удалось завершить операцию после " ++ toString max_attempts
               ++ " попыток: " ++ ("Ошибка при загрузке файла: " ++ m))) ∧
       (wait_for_operation_completion responses).requests = 10) ∧
    (∀ m, reportsFailed (responses 0) m = true →
       reportsSuccess (responses 1) = true →
       (wait_for_operation_completion responses).outcome = .ok () ∧
       (wait_for_operation_completion responses).requests = 2) := by
  refine ⟨?_, ?_, ?_⟩
  · intro k hk hpre hsucc
    obtain ⟨h1, h2⟩ := waitAux_success_at responses max_attempts 0 1 0 [] k rfl
      (Nat.zero_le _) hk (fun j _ hj => hpre j hj) hsucc
    rw [wait_for_operation_completion]
    exact ⟨h1, by omega⟩
  · intro m hall
    obtain ⟨h1, h2⟩ := waitAux_all_failed responses m max_attempts 0 1 0 [] rfl
      (by decide) (fun j _ hj => hall j hj)
    rw [wait_for_operation_completion]
    have hm : max_attempts = 10 := rfl
    exact ⟨h1, by omega⟩
  · intro m hf hs
    rw [wait_for_operation_completion]
    rw [show max_attempts = 9 + 1 from rfl]
    rw [waitAux_raised_cont (pollClassify_of_failed hf) (by decide)]
    rw [show (9 : Nat) = 8 + 1 from rfl]
    rw [waitAux_retOk (pollClassify_of_success hs)]
    exact ⟨rfl, rfl⟩

/-- C2 witness: a first response reporting `"success"` makes the loop return
normally after exactly one request. -/
theorem C2_success_returns_witness :
    reportsSuccess (allSuccessResponses 0) = true ∧
    ((wait_for_operation_completion allSuccessResponses).outcome = .ok () ∧
     (wait_for_operation_completion allSuccessResponses).requests = 0 + 1) :=
  ⟨by decide,
   (C2_success_returns_failed_raises_only_on_last allSuccessResponses).1 0
     (by decide) (by decide) (by decide)⟩

/-- C8: when every one of the 10 attempts reports `"in-progress"`, the loop
exhausts its attempts and returns `None` — the timeout case raises nothing,
so the caller treats it like success. -/
theorem C8_timeout_returns_normally (responses : Nat → NetResult)
    (h : ∀ j, j < 10 → reportsInProgress (responses j) = true) :
    (wait_for_operation_completion responses).outcome = .ok () ∧
    (wait_for_operation_completion responses).requests = 10 := by
  obtain ⟨h1, h2⟩ := waitAux_all_inProgress responses max_attempts 0 1 0 [] rfl
    (fun j _ hj => h j hj)
  rw [wait_for_operation_completion]
  have hm : max_attempts = 10 := rfl
  exact ⟨h1, by omega⟩

/-- C8 witness: the all-in-progress oracle. -/
theorem C8_timeout_returns_normally_witness :
    (∀ j, j < 10 → reportsInProgress (allInProgressResponses j) = true) ∧
    ((wait_for_operation_completion allInProgressResponses).outcome = .ok () ∧
     (wait_for_operation_completion allInProgressResponses).requests = 10) :=
  ⟨by decide, C8_timeout_returns_normally allInProgressResponses (by decide)⟩

/-! ## C3: folder creation tolerates 409 -/

/-- C3: `_create_remote_directory` returns normally when the PUT answers 409
("already exists"), and raises a `RequestException` for any other error
status (the range `raise_for_status` raises on). -/
theorem C3_create_directory_tolerates_409 (path : String) (resp : HttpResponse) :
    (resp.statusCode = 409 →
       create_remote_directory path (.response resp) = .ok ()) ∧
    (400 ≤ resp.statusCode → resp.statusCode < 600 → resp.statusCode ≠ 409 →
       create_remote_directory path (.response resp)
         = .error (.RequestException
             ("Ошибка при создании папки " ++ path ++ ": "
               ++ http_error_message resp.statusCode))) := by
  constructor
  · intro h
    simp [create_remote_directory, h]
  · intro h4 h6 h9
    have hok : statusOkB resp.statusCode = false := by
      simp only [statusOkB, Bool.or_eq_false_iff, decide_eq_false_iff_not]
      omega
    simp [create_remote_directory, h9, hok]

/-- C3 witness: a 409 answer is tolerated, a 404 answer raises. -/
theorem C3_create_directory_tolerates_409_witness :
    create_remote_directory "/Нетология" (.response ⟨409, JsonBody.empty, []⟩)
      = .ok () ∧
    create_remote_directory "/Нетология" (.response ⟨404, JsonBody.empty, []⟩)
      = .error (.RequestException
          ("Ошибка при создании папки " ++ "/Нетология" ++ ": "
            ++ http_error_message 404)) :=
  ⟨(C3_create_directory_tolerates_409 "/Нетология" ⟨409, JsonBody.empty, []⟩).1
      (by decide),
   (C3_create_directory_tolerates_409 "/Нетология" ⟨404, JsonBody.empty, []⟩).2
      (by decide) (by decide) (by decide)⟩

/-! ## C7: the image download -/

/-- C7: `_download_cat_image` consults exactly the fixed URL template
`CAT_API_BASE_URL ++ "/" ++ text`; when that URL answers a non-error status it
returns the body bytes; every failure (timeout, transport error, error
status) surfaces as a `RequestException`. -/
theorem C7_download_uses_fixed_url_and_wraps_errors (text : String)
    (http : String → NetResult) :
    (∀ b, download_cat_image text http = .ok b →
       ∃ resp, http (cat_image_url text) = .response resp ∧
         statusOkB resp.statusCode = true ∧ b = resp.content) ∧
    (∀ e, download_cat_image text http = .error e →
       ∃ m, e = .RequestException m) ∧
    (∀ http2 : String → NetResult,
       http2 (cat_image_url text) = http (cat_image_url text) →
       download_cat_image text http2 = download_cat_image text http) := by
  refine ⟨?_, ?_, ?_⟩
  · intro b hb
    cases hr : http (cat_image_url text) with
    | timeout m =>
        simp only [download_cat_image, hr] at hb
        exact Except.noConfusion hb
    | connError m =>
        simp only [download_cat_image, hr] at hb
        exact Except.noConfusion hb
    | response resp =>
        simp only [download_cat_image, hr] at hb
        split at hb
        next hok =>
          injection hb with hb1
          subst hb1
          exact ⟨resp, rfl, hok, rfl⟩
        next hok => exact Except.noConfusion hb
  · intro e he
    cases hr : http (cat_image_url text) with
    | timeout m =>
        simp only [download_cat_image, hr] at he
        injection he with he1
        subst he1
        exact ⟨_, rfl⟩
    | connError m =>
        simp only [download_cat_image, hr] at he
        injection he with he1
        subst he1
        exact ⟨_, rfl⟩
    | response resp =>
        simp only [download_cat_image, hr] at he
        split at he
        next => exact Except.noConfusion he
        next =>
          injection he with he1
          subst he1
          exact ⟨_, rfl⟩
  · intro http2 h2
    rw [download_cat_image, download_cat_image, h2]

/-- C7 witness: a 200 answer at the caption URL yields exactly its bytes. -/
theorem C7_download_uses_fixed_url_witness :
    ∃ resp, catHttpOracle (cat_image_url "hello") = .response resp ∧
      statusOkB resp.statusCode = true ∧ [1, 2, 3] = resp.content :=
  (C7_download_uses_fixed_url_and_wraps_errors "hello" catHttpOracle).1
    [1, 2, 3] rfl

/-! ## C9: filename sanitisation -/

theorem foldl_py_replace (L text : List Char) :
    L.foldl py_replace_char text
      = text.map (fun c => if c ∈ L then '_' else c) := by
  induction L generalizing text with
  | nil => simp
  | cons c L ih =>
      rw [List.foldl_cons, ih, py_replace_char, List.map_map]
      apply List.map_congr_left
      intro a _
      by_cases hac : a = c
      · subst hac
        simp [Function.comp]
      · simp [Function.comp, hac]

/-- The ten single-character replacements amount to one map over the text. -/
theorem sanitize_eq_map (text : List Char) :
    sanitize text = text.map sanitizeChar := by
  rw [sanitize, foldl_py_replace]
  rfl

/-- C9: for a timestamp free of the unsafe characters (as strftime's output
is), the generated filename contains none of the ten unsafe characters — each
occurrence in the text is replaced by an underscore — and it is the sanitised
text followed by an underscore, the timestamp and `".jpg"`. -/
theorem C9_generate_filename_sanitizes (text ts : List Char)
    (hts : ∀ c ∈ ts, c ∉ forbidden_chars) :
    (∀ c ∈ forbidden_chars, c ∉ generate_filename text ts) ∧
    generate_filename text ts
      = text.map sanitizeChar ++ ['_'] ++ ts ++ ".jpg".toList := by
  constructor
  · intro c hc hmem
    have hcu : c ≠ '_' := by
      intro h
      subst h
      revert hc
      decide
    rw [generate_filename, sanitize_eq_map] at hmem
    simp only [List.mem_append] at hmem
    rcases hmem with ((hm | hm) | hm) | hm
    · obtain ⟨a, ha, hae⟩ := List.mem_map.mp hm
      rw [sanitizeChar] at hae
      by_cases haf : a ∈ forbidden_chars
      · rw [if_pos haf] at hae
        exact hcu hae.symm
      · rw [if_neg haf] at hae
        exact haf (hae ▸ hc)
    · exact hcu (List.mem_singleton.mp hm)
    · exact hts c hm hc
    · have hm' : c ∈ ['.', 'j', 'p', 'g'] := hm
      fin_cases hm' <;> exact absurd hc (by decide)
  · rw [generate_filename, sanitize_eq_map]

/-- C9 witness: the text `"a b/c"` with a concrete strftime timestamp. -/
theorem C9_generate_filename_sanitizes_witness :
    (∀ c ∈ "20250101_120000_123".toList, c ∉ forbidden_chars) ∧
    ((∀ c ∈ forbidden_chars,
        c ∉ generate_filename "a b/c".toList "20250101_120000_123".toList) ∧
     generate_filename "a b/c".toList "20250101_120000_123".toList
       = "a b/c".toList.map sanitizeChar ++ ['_']
           ++ "20250101_120000_123".toList ++ ".jpg".toList) :=
  ⟨by decide,
   C9_generate_filename_sanitizes "a b/c".toList "20250101_120000_123".toList
     (by decide)⟩

/-! ## Upload and backup lemmas -/

theorem finish_upload_polled (w : UploadWorld) (data : List Nat)
    (filename remote_path : String) (polled : Bool) (preEvents : List Event) :
    (finish_upload w data filename remote_path polled preEvents).polled
      = polled := by
  simp only [finish_upload]
  cases get_file_metadata w.metadataResp <;> rfl

theorem finish_upload_events (w : UploadWorld) (data : List Nat)
    (filename remote_path : String) (polled : Bool) (preEvents : List Event) :
    (finish_upload w data filename remote_path polled preEvents).events
      = preEvents ++ [.getMetadata] := by
  simp only [finish_upload]
  cases get_file_metadata w.metadataResp <;> rfl

theorem finish_upload_ok (w : UploadWorld) (data : List Nat)
    (filename remote_path : String) (polled : Bool) (preEvents : List Event)
    (info : FileInfo)
    (h : (finish_upload w data filename remote_path polled preEvents).outcome
      = .ok info) :
    info.name = filename ∧ info.path = remote_path := by
  simp only [finish_upload] at h
  cases hm : get_file_metadata w.metadataResp with
  | error e => simp only [hm] at h; exact Except.noConfusion h
  | ok meta =>
      simp only [hm] at h
      injection h with h1
      subst h1
      exact ⟨rfl, rfl⟩

/-- A successful `_upload_file_to_disk` names the record after the filename
and the remote path, and its request trace is the upload-URL GET, the PUT,
the polls (possibly none) and the metadata GET, in that order. -/
theorem upload_ok_characterization (w : UploadWorld) (data : List Nat)
    (filename group_name : String) (info : FileInfo)
    (h : (upload_file_to_disk w data filename group_name).outcome = .ok info) :
    info.name = filename ∧ info.path = "/" ++ group_name ++ "/" ++ filename ∧
    ∃ n, (upload_file_to_disk w data filename group_name).events
      = [.getUploadUrl, .putBytes] ++ List.replicate n Event.pollStatus
          ++ [.getMetadata] := by
  simp only [upload_file_to_disk] at h ⊢
  cases hgu : get_upload_url ("/" ++ group_name ++ "/" ++ filename)
      w.getUploadUrlResp with
  | error e =>
      simp only [hgu] at h
      exact Except.noConfusion h
  | ok u =>
      simp only [hgu] at h ⊢
      cases hput : w.putResp with
      | timeout m => simp only [hput] at h; exact Except.noConfusion h
      | connError m => simp only [hput] at h; exact Except.noConfusion h
      | response resp =>
          simp only [hput] at h ⊢
          by_cases hok : statusOkB resp.statusCode = true
          · rw [if_pos hok] at h ⊢
            by_cases h202 : resp.statusCode = 202
            · rw [if_pos h202] at h ⊢
              by_cases hhref : href_truthy resp.body.href = true
              · rw [if_pos hhref] at h ⊢
                cases hpr :
                    (wait_for_operation_completion w.pollResponses).outcome with
                | error e =>
                    simp only [hpr] at h
                    exact Except.noConfusion h
                | ok _ =>
                    simp only [hpr] at h ⊢
                    obtain ⟨h1, h2⟩ := finish_upload_ok _ _ _ _ _ _ _ h
                    refine ⟨h1, h2,
                      (wait_for_operation_completion w.pollResponses).requests,
                      ?_⟩
                    rw [finish_upload_events]
              · rw [if_neg hhref] at h ⊢
                obtain ⟨h1, h2⟩ := finish_upload_ok _ _ _ _ _ _ _ h
                refine ⟨h1, h2, 0, ?_⟩
                rw [finish_upload_events]
                simp
            · rw [if_neg h202] at h ⊢
              obtain ⟨h1, h2⟩ := finish_upload_ok _ _ _ _ _ _ _ h
              refine ⟨h1, h2, 0, ?_⟩
              rw [finish_upload_events]
              simp
          · rw [if_neg hok] at h
            exact Except.noConfusion h

/-- On a successful run, `backup_cat_image` appends exactly the returned
record, and its trace is folder creation, download, upload-URL GET, PUT,
polls (possibly none) and metadata GET, in that order. -/
theorem backup_ok_characterization (w : BackupWorld) (text ts group_name : String)
    (infos : List FileInfo) (info : FileInfo)
    (h : (backup_cat_image w text ts group_name infos).outcome = .ok info) :
    (backup_cat_image w text ts group_name infos).infos = infos ++ [info] ∧
    ∃ n, (backup_cat_image w text ts group_name infos).events
      = [.createDir, .downloadImage, .getUploadUrl, .putBytes]
          ++ List.replicate n Event.pollStatus ++ [.getMetadata] := by
  simp only [backup_cat_image] at h ⊢
  cases hcd : create_remote_directory ("/" ++ group_name) w.createDirResp with
  | error e =>
      simp only [hcd] at h
      exact Except.noConfusion h
  | ok _ =>
      simp only [hcd] at h ⊢
      cases hdl : download_cat_image text w.http with
      | error e =>
          simp only [hdl] at h
          exact Except.noConfusion h
      | ok image_data =>
          simp only [hdl] at h ⊢
          cases hur : (upload_file_to_disk w.upload image_data
              (generate_filename_str text ts) group_name).outcome with
          | error e =>
              simp only [hur] at h
              exact Except.noConfusion h
          | ok fi =>
              simp only [hur] at h ⊢
              injection h with h1
              subst h1
              obtain ⟨-, -, n, hev⟩ := upload_ok_characterization _ _ _ _ _ hur
              refine ⟨rfl, n, ?_⟩
              rw [hev]
              simp

/-- On a failed run, `backup_cat_image` leaves the record list unchanged. -/
theorem backup_error_characterization (w : BackupWorld)
    (text ts group_name : String) (infos : List FileInfo) (e : PyErr)
    (h : (backup_cat_image w text ts group_name infos).outcome = .error e) :
    (backup_cat_image w text ts group_name infos).infos = infos := by
  simp only [backup_cat_image] at h ⊢
  cases hcd : create_remote_directory ("/" ++ group_name) w.createDirResp with
  | error e1 => simp only [hcd]
  | ok _ =>
      simp only [hcd] at h ⊢
      cases hdl : download_cat_image text w.http with
      | error e1 => simp only [hdl]
      | ok image_data =>
          simp only [hdl] at h ⊢
          cases hur : (upload_file_to_disk w.upload image_data
              (generate_filename_str text ts) group_name).outcome with
          | error e1 => simp only [hur]
          | ok fi =>
              simp only [hur] at h
              exact Except.noConfusion h

/-! ## C10: atomicity of the record list -/

/-- C10: `backup_cat_image` appends exactly one record to
`_uploaded_files_info` on success, and leaves the list unchanged whenever any
step raises. -/
theorem C10_record_list_atomic (w : BackupWorld) (text ts group_name : String)
    (infos : List FileInfo) :
    (∀ info, (backup_cat_image w text ts group_name infos).outcome = .ok info →
       (backup_cat_image w text ts group_name infos).infos = infos ++ [info]) ∧
    (∀ e, (backup_cat_image w text ts group_name infos).outcome = .error e →
       (backup_cat_image w text ts group_name infos).infos = infos) :=
  ⟨fun info h =>
     (backup_ok_characterization w text ts group_name infos info h).1,
   fun e h => backup_error_characterization w text ts group_name infos e h⟩

/-- C10 witness: a fully successful run appends its record; a run failing at
folder creation leaves the accumulated list untouched. -/
theorem C10_record_list_atomic_witness :
    (backup_cat_image goodBackupWorld "hello" "20250101" "G" [uploadOkInfo]).infos
      = [uploadOkInfo] ++ [backupOkInfo] ∧
    (backup_cat_image badCreateDirWorld "hello" "20250101" "G" [uploadOkInfo]).infos
      = [uploadOkInfo] :=
  ⟨(C10_record_list_atomic goodBackupWorld "hello" "20250101" "G"
      [uploadOkInfo]).1 backupOkInfo rfl,
   (C10_record_list_atomic badCreateDirWorld "hello" "20250101" "G"
      [uploadOkInfo]).2
     (.RequestException "Ошибка при создании папки /G: HTTP error 404") rfl⟩

/-! ## C5: order of the workflow steps -/

/-- C5 counterexample: in a fully successful run the remote folder is created
*before* the image is downloaded, so the spec's order "download image bytes,
then ensure a remote folder exists" does not hold: the download event does
not precede the folder-creation event. -/
theorem C5_counterexample_folder_created_before_download :
    (main_workflow goodBackupWorld "hello" "20250101" "G").outcome
      = .ok backupOkInfo ∧
    (main_workflow goodBackupWorld "hello" "20250101" "G").events
      = [.readConfig, .createDir, .downloadImage, .getUploadUrl, .putBytes,
         .getMetadata] ∧
    ¬ ((main_workflow goodBackupWorld "hello" "20250101" "G").events.indexOf
          Event.downloadImage
        < (main_workflow goodBackupWorld "hello" "20250101" "G").events.indexOf
          Event.createDir) :=
  ⟨rfl, rfl, by decide⟩

/-- C5 amended: every successful run executes, in order: read configuration,
ensure the remote folder exists, download the image bytes, request the upload
URL, PUT the bytes (then poll if needed and fetch metadata).  Folder creation
comes before the download, not after it. -/
theorem C5_workflow_order (w : BackupWorld) (text ts group_name : String)
    (info : FileInfo)
    (h : (main_workflow w text ts group_name).outcome = .ok info) :
    ∃ n, (main_workflow w text ts group_name).events
      = [.readConfig, .createDir, .downloadImage, .getUploadUrl, .putBytes]
          ++ List.replicate n Event.pollStatus ++ [.getMetadata] := by
  have hb : (backup_cat_image w text ts group_name []).outcome = .ok info := h
  obtain ⟨-, n, hev⟩ :=
    backup_ok_characterization w text ts group_name [] info hb
  refine ⟨n, ?_⟩
  show Event.readConfig :: (backup_cat_image w text ts group_name []).events = _
  rw [hev]
  simp

/-- C5 witness: the successful concrete run, with no polling. -/
theorem C5_workflow_order_witness :
    ∃ n, (main_workflow goodBackupWorld "hello" "20250101" "G").events
      = [.readConfig, .createDir, .downloadImage, .getUploadUrl, .putBytes]
          ++ List.replicate n Event.pollStatus ++ [.getMetadata] :=
  C5_workflow_order goodBackupWorld "hello" "20250101" "G" backupOkInfo rfl

/-! ## C4: when polling happens -/

/-- C4 counterexample: a PUT response with status 202 whose body *does*
contain an `"href"` field — bound to the empty string.  The claim says
polling happens whenever the PUT answers 202 with an `"href"` field present;
in fact Python's truthiness check skips polling for an empty `href`, and the
run proceeds directly to the metadata fetch. -/
theorem C4_counterexample_202_with_empty_href :
    uploadWorld202EmptyHref.putResp = .response put202EmptyHrefResp ∧
    put202EmptyHrefResp.statusCode = 202 ∧
    put202EmptyHrefResp.body.href.isSome = true ∧
    (upload_file_to_disk uploadWorld202EmptyHref [1] "f.jpg" "G").polled
      = false ∧
    (upload_file_to_disk uploadWorld202EmptyHref [1] "f.jpg" "G").events
      = [.getUploadUrl, .putBytes, .getMetadata] :=
  ⟨rfl, rfl, rfl, rfl, rfl⟩

/-- C4 amended: given that the upload URL was obtained and the PUT answered
with a non-error status, `_wait_for_operation_completion` runs iff the PUT's
status is 202 *and* its body holds a non-empty (truthy) `"href"`; in every
other case — including a 202 whose `href` is absent or empty — the function
proceeds directly to the metadata fetch, with no poll request. -/
theorem C4_polls_iff_202_with_truthy_href (w : UploadWorld) (data : List Nat)
    (filename group_name u : String) (resp : HttpResponse)
    (h1 : get_upload_url ("/" ++ group_name ++ "/" ++ filename)
        w.getUploadUrlResp = .ok u)
    (h2 : w.putResp = .response resp)
    (h3 : statusOkB resp.statusCode = true) :
    ((upload_file_to_disk w data filename group_name).polled
       = (decide (resp.statusCode = 202) && href_truthy resp.body.href)) ∧
    ((upload_file_to_disk w data filename group_name).polled = false →
       (upload_file_to_disk w data filename group_name).events
         = [.getUploadUrl, .putBytes, .getMetadata]) := by
  simp only [upload_file_to_disk, h1, h2]
  rw [if_pos h3]
  by_cases h202 : resp.statusCode = 202
  · rw [if_pos h202]
    by_cases hhref : href_truthy resp.body.href = true
    · rw [if_pos hhref]
      cases hpr : (wait_for_operation_completion w.pollResponses).outcome with
      | error e =>
          simp only [hpr]
          refine ⟨by simp [h202, hhref], ?_⟩
          intro hc
          simp at hc
      | ok _ =>
          simp only [hpr]
          refine ⟨by simp [finish_upload_polled, h202, hhref], ?_⟩
          intro hc
          rw [finish_upload_polled] at hc
          simp at hc
    · rw [if_neg hhref]
      have hhf : href_truthy resp.body.href = false :=
        Bool.eq_false_iff.mpr hhref
      refine ⟨by simp [finish_upload_polled, hhf], ?_⟩
      intro _
      rw [finish_upload_events]
      rfl
  · rw [if_neg h202]
    refine ⟨by simp [finish_upload_polled, h202], ?_⟩
    intro _
    rw [finish_upload_events]
    rfl

/-- C4 witness: a synchronous 201 PUT answer leads straight to the metadata
fetch with no polling. -/
theorem C4_polls_iff_202_witness :
    ((upload_file_to_disk goodUploadWorld [9, 9] "f_1.jpg" "G").polled
       = (decide ((201 : Nat) = 202)
            && href_truthy (JsonBody.empty).href)) ∧
    ((upload_file_to_disk goodUploadWorld [9, 9] "f_1.jpg" "G").polled = false →
       (upload_file_to_disk goodUploadWorld [9, 9] "f_1.jpg" "G").events
         = [.getUploadUrl, .putBytes, .getMetadata]) :=
  C4_polls_iff_202_with_truthy_href goodUploadWorld [9, 9] "f_1.jpg" "G"
    "https://upload.example" ⟨201, JsonBody.empty, []⟩ rfl rfl rfl

/-! ## C6: the backup record and its serialization -/

/-- C6: a successful upload's record describes the file by its name and
remote path (with size, created and modified fields filled from the metadata
response), and `save_backup_info` — by default into `backup_info.json` —
serializes exactly the accumulated records, with their count and total
size. -/
theorem C6_backup_record_serialization (group_name backup_date : String)
    (infos : List FileInfo) (w : UploadWorld) (data : List Nat)
    (filename g : String) :
    (save_backup_info_default group_name backup_date infos).1
      = "backup_info.json" ∧
    (save_backup_info_default group_name backup_date infos).2.files = infos ∧
    (save_backup_info_default group_name backup_date infos).2.total_files
      = infos.length ∧
    (save_backup_info_default group_name backup_date infos).2.total_size
      = (infos.map FileInfo.size).sum ∧
    (∀ info, (upload_file_to_disk w data filename g).outcome = .ok info →
       info.name = filename ∧ info.path = "/" ++ g ++ "/" ++ filename) :=
  ⟨rfl, rfl, rfl, rfl, fun info h =>
    ⟨(upload_ok_characterization w data filename g info h).1,
     (upload_ok_characterization w data filename g info h).2.1⟩⟩

/-- C6 witness: the concrete successful upload of `goodUploadWorld`. -/
theorem C6_backup_record_serialization_witness :
    (save_backup_info_default "G" "2025-01-02" [uploadOkInfo]).1
      = "backup_info.json" ∧
    (save_backup_info_default "G" "2025-01-02" [uploadOkInfo]).2.files
      = [uploadOkInfo] ∧
    (uploadOkInfo.name = "f_1.jpg" ∧
     uploadOkInfo.path = "/" ++ "G" ++ "/" ++ "f_1.jpg") :=
  ⟨(C6_backup_record_serialization "G" "2025-01-02" [uploadOkInfo]
      goodUploadWorld [9, 9] "f_1.jpg" "G").1,
   (C6_backup_record_serialization "G" "2025-01-02" [uploadOkInfo]
      goodUploadWorld [9, 9] "f_1.jpg" "G").2.1,
   (C6_backup_record_serialization "G" "2025-01-02" [uploadOkInfo]
      goodUploadWorld [9, 9] "f_1.jpg" "G").2.2.2.2 uploadOkInfo rfl⟩

end CatCloudBackup
